import Mathlib

/-!
# Verification of the scan-job dashboard backend (`src/main.py`)

Shallow embedding of the query / pagination / normalization core of the
FastAPI + MongoDB scan-job dashboard, together with theorems settling the
frozen specification claims.

Modelling conventions:

* A MongoDB document is an association list `List (String × MVal)`; real
  documents are Python dicts, so keys are unique and first-match lookup
  agrees with dict lookup.
* MongoDB / `datetime` timestamps are microseconds since the Unix epoch
  (exact integer arithmetic; `datetime` arithmetic is exact at microsecond
  granularity).  A parsed Python `datetime` is a `PyDT`: its microsecond
  value (already shifted to UTC when an offset was given) plus an `aware`
  flag; subtracting a naive from an aware datetime raises in Python, which
  the embedding mirrors.
* `datetime.fromisoformat` is modelled on the grammar
  `YYYY-MM-DD[THH:MM[:SS[.f{1..6}]][±HH:MM]]` with calendar validation —
  the portion of the ISO format exercised by this code (which first
  replaces every capital `Z` by `+00:00`).  Pydantic's datetime validator
  additionally accepts a trailing `Z`/`z`, which is how the two parsers
  are distinguished here.
* Pydantic validation of the `ScanJob` model is modelled strictly: a field
  value of the wrong shape fails validation (`Except.error`), a missing
  field takes the declared default / `None`.
* MongoDB `$regex` with option `i` (PCRE) is modelled by a regex engine
  over literals, the `.` wildcard (not matching a newline, as in PCRE
  without `s`), and the `*`/`+`/`?` quantifiers on single atoms; patterns
  using the remaining PCRE constructs fail to compile and are an explicit
  model boundary no theorem quantifies over.
* External effects are parameters: the `Store` structure carries the
  tenant directory, the per-database scan-job collections, and two fault
  flags modelling backing-store access failures (connectivity / missing
  partition) on the tenant collection and on the job collections.
-/

/-- A BSON value, restricted to the shapes this code manipulates. -/
inductive MVal where
  | objectId (s : String)
  | date (usec : Int)
  | str (s : String)
  | int (n : Int)
  | bool (b : Bool)
  | null
deriving DecidableEq, Repr

/-- A raw MongoDB document: an association list of fields. -/
abbrev RawDoc := List (String × MVal)

/-- First-match association-list lookup (dict lookup; real dicts have unique keys). -/
def alookup {α : Type} (k : String) : List (String × α) → Option α
  | [] => none
  | kv :: rest => if kv.1 = k then some kv.2 else alookup k rest

/-- Python truthiness of a BSON value (`if serialized_doc.get(...)`). -/
def pyTruthy : MVal → Bool
  | MVal.str s => !(s == "")
  | MVal.int n => !(n == 0)
  | MVal.bool b => b
  | MVal.null => false
  | MVal.objectId _ => true
  | MVal.date _ => true

/-- Python truthiness of an optional string parameter (`if tenant_filter:`):
`None` and the empty string are falsy. -/
def optTruthy : Option String → Bool
  | none => false
  | some s => !(s == "")

/-! ## Calendar arithmetic (the proleptic Gregorian calendar used by `datetime`) -/

/-- Leap-year test. -/
def isLeapYear (y : Int) : Bool :=
  (y % 4 == 0 && y % 100 != 0) || y % 400 == 0

/-- Days in a month (`m` is 1-based). -/
def daysInMonth (y m : Int) : Int :=
  if m = 2 then (if isLeapYear y then 29 else 28)
  else if m = 4 ∨ m = 6 ∨ m = 9 ∨ m = 11 then 30
  else 31

/-- Days since 1970-01-01 of the civil date `(y, m, d)` (Howard Hinnant's
`days_from_civil` algorithm, as used by every civil-calendar library). -/
def daysFromCivil (y m d : Int) : Int :=
  let yy := if m ≤ 2 then y - 1 else y
  let era := Int.fdiv yy 400
  let yoe := yy - era * 400
  let doy := Int.fdiv (153 * (m + (if m > 2 then -3 else 9)) + 2) 5 + d - 1
  let doe := yoe * 365 + Int.fdiv yoe 4 - Int.fdiv yoe 100 + doy
  era * 146097 + doe - 719468

/-- Inverse of `daysFromCivil` (`civil_from_days`). -/
def civilFromDays (z : Int) : Int × Int × Int :=
  let z := z + 719468
  let era := Int.fdiv z 146097
  let doe := z - era * 146097
  let yoe := Int.fdiv (doe - Int.fdiv doe 1460 + Int.fdiv doe 36524 - Int.fdiv doe 146096) 365
  let y := yoe + era * 400
  let doy := doe - (365 * yoe + Int.fdiv yoe 4 - Int.fdiv yoe 100)
  let mp := Int.fdiv (5 * doy + 2) 153
  let d := doy - Int.fdiv (153 * mp + 2) 5 + 1
  let m := mp + (if mp < 10 then 3 else -9)
  (if m ≤ 2 then y + 1 else y, m, d)

/-- Zero-padded decimal rendering of a natural number. -/
def padNum (w n : Nat) : String :=
  let s := toString n
  String.mk (List.replicate (w - s.length) '0') ++ s

/-- `datetime.isoformat()` / `str(datetime)` of a naive datetime given as
microseconds since the epoch; `sep` is `'T'` for `isoformat` and `' '` for
`str`.  Microseconds are printed as six digits only when nonzero, exactly as
CPython does. -/
def isoOfUsec (sep : Char) (u : Int) : String :=
  let day := Int.fdiv u 86400000000
  let tod := (u - day * 86400000000).toNat
  let ymd := civilFromDays day
  let us := tod % 1000000
  let tsec := tod / 1000000
  padNum 4 ymd.1.toNat ++ "-" ++ padNum 2 ymd.2.1.toNat ++ "-" ++ padNum 2 ymd.2.2.toNat ++
    String.singleton sep ++ padNum 2 (tsec / 3600) ++ ":" ++ padNum 2 ((tsec / 60) % 60) ++
    ":" ++ padNum 2 (tsec % 60) ++ (if us = 0 then "" else "." ++ padNum 6 us)

/-! ## `datetime.fromisoformat` and pydantic's datetime validator -/

/-- A parsed Python `datetime`: microseconds since the epoch (already shifted
to UTC when an offset was present) and whether it is timezone-aware. -/
structure PyDT where
  usec : Int
  aware : Bool
deriving DecidableEq, Repr

/-- The numeric value of a decimal digit. -/
def digitVal (c : Char) : Nat := c.toNat - '0'.toNat

/-- Read exactly `n` decimal digits, accumulating their value. -/
def readNDigitsAux : Nat → Nat → List Char → Option (Nat × List Char)
  | 0, acc, cs => some (acc, cs)
  | n + 1, acc, c :: cs =>
      if c.isDigit then readNDigitsAux n (acc * 10 + digitVal c) cs else none
  | _ + 1, _, [] => none

/-- Read exactly `n` decimal digits. -/
def readNDigits (n : Nat) (cs : List Char) : Option (Nat × List Char) :=
  readNDigitsAux n 0 cs

/-- Expect one specific character. -/
def expectCh (c : Char) : List Char → Option (List Char)
  | c' :: cs => if c' = c then some cs else none
  | [] => none

/-- Read up to `n` further fractional-second digits, returning how many digits
were consumed in total and their value; fails (returns the count unchanged) on
a seventh digit via the caller's bound. -/
def readFracAux : Nat → Nat → Nat → List Char → Option (Nat × Nat × List Char)
  | 0, k, acc, cs =>
      match cs with
      | c :: _ => if c.isDigit then none else some (k, acc, cs)
      | [] => some (k, acc, [])
  | n + 1, k, acc, c :: cs =>
      if c.isDigit then readFracAux n (k + 1) (acc * 10 + digitVal c) cs
      else some (k, acc, c :: cs)
  | _ + 1, k, acc, [] => some (k, acc, [])

/-- Assemble a `PyDT` from civil fields, applying a UTC offset in minutes when
one was parsed (making the result aware). -/
def mkPyDT (y m d h mi s us : Nat) (off : Option Int) : PyDT :=
  let localUsec : Int :=
    daysFromCivil (y : Int) (m : Int) (d : Int) * 86400000000 +
      ((h * 3600 + mi * 60 + s : Nat) : Int) * 1000000 + (us : Int)
  { usec := localUsec - (off.getD 0) * 60000000, aware := off.isSome }

/-- Parse the optional `±HH:MM` UTC-offset suffix; the remainder must be empty. -/
def parseOffsetTail (cs : List Char) : Option (Option Int) :=
  match cs with
  | [] => some none
  | sign :: rest =>
      if sign = '+' ∨ sign = '-' then
        match readNDigits 2 rest with
        | some (oh, rest1) =>
            match expectCh ':' rest1 with
            | some rest2 =>
                match readNDigits 2 rest2 with
                | some (om, rest3) =>
                    if rest3 = [] ∧ oh ≤ 23 ∧ om ≤ 59 then
                      some (some ((if sign = '-' then -1 else 1) * ((oh : Int) * 60 + (om : Int))))
                    else none
                | none => none
            | none => none
        | none => none
      else none

/-- Parse the time-of-day part `HH:MM[:SS[.f{1..6}]]` followed by an optional
offset; returns `(h, mi, s, us, offset)`. -/
def parseTimeTail (cs : List Char) : Option (Nat × Nat × Nat × Nat × Option Int) :=
  match readNDigits 2 cs with
  | none => none
  | some (h, cs1) =>
    match expectCh ':' cs1 with
    | none => none
    | some cs2 =>
      match readNDigits 2 cs2 with
      | none => none
      | some (mi, cs3) =>
        match cs3 with
        | ':' :: cs4 =>
            match readNDigits 2 cs4 with
            | none => none
            | some (s, cs5) =>
              match cs5 with
              | '.' :: cs6 =>
                  match readFracAux 6 0 0 cs6 with
                  | none => none
                  | some (k, fracVal, cs7) =>
                      if 1 ≤ k then
                        match parseOffsetTail cs7 with
                        | none => none
                        | some off => some (h, mi, s, fracVal * 10 ^ (6 - k), off)
                      else none
              | _ =>
                  match parseOffsetTail cs5 with
                  | none => none
                  | some off => some (h, mi, s, 0, off)
        | _ =>
            match parseOffsetTail cs3 with
            | none => none
            | some off => some (h, mi, 0, 0, off)

/-- `datetime.fromisoformat`, on the grammar subset described in the header:
`YYYY-MM-DD` optionally followed by `T` and a time-of-day with optional
fractional seconds and optional `±HH:MM` offset.  Field values are validated
against the real calendar, exactly as CPython does. -/
def fromisoformat (cs : List Char) : Option PyDT :=
  match readNDigits 4 cs with
  | none => none
  | some (y, cs1) =>
    match expectCh '-' cs1 with
    | none => none
    | some cs2 =>
      match readNDigits 2 cs2 with
      | none => none
      | some (m, cs3) =>
        match expectCh '-' cs3 with
        | none => none
        | some cs4 =>
          match readNDigits 2 cs4 with
          | none => none
          | some (d, cs5) =>
            if 1 ≤ y ∧ 1 ≤ m ∧ m ≤ 12 ∧ 1 ≤ d ∧ (d : Int) ≤ daysInMonth (y : Int) (m : Int) then
              match cs5 with
              | [] => some (mkPyDT y m d 0 0 0 0 none)
              | 'T' :: cs6 =>
                  match parseTimeTail cs6 with
                  | none => none
                  | some (h, mi, s, us, off) =>
                      if h ≤ 23 ∧ mi ≤ 59 ∧ s ≤ 59 then some (mkPyDT y m d h mi s us off)
                      else none
              | _ => none
            else none

/-- `s.replace('Z', '+00:00')`: every capital `Z` is replaced. -/
def pyReplaceZ : List Char → List Char
  | [] => []
  | c :: cs =>
      if c = 'Z' then '+' :: '0' :: '0' :: ':' :: '0' :: '0' :: pyReplaceZ cs
      else c :: pyReplaceZ cs

/-- The duration computation's timestamp parse:
`datetime.fromisoformat(value.replace('Z', '+00:00'))`.  Applied to a
non-string value, `.replace` raises `AttributeError`, which the surrounding
`try` swallows — modelled as a parse failure. -/
def pyParseTs : Option MVal → Option PyDT
  | some (MVal.str s) => fromisoformat (pyReplaceZ s.toList)
  | _ => none

/-- Pydantic's datetime validator on strings: ISO-8601, additionally accepting
a trailing `Z`/`z` designator (which `fromisoformat` itself rejects before
Python 3.11, and which the code's `.replace` rewrites only when capital). -/
def pydanticParseDT (s : String) : Option PyDT :=
  match s.toList.getLast? with
  | none => none
  | some c =>
      if c = 'Z' ∨ c = 'z' then
        fromisoformat (s.toList.dropLast ++ ['+', '0', '0', ':', '0', '0'])
      else fromisoformat s.toList

/-! ## `serialize_mongo_doc` -/

/-- Python `str()` of a BSON value (`result["id"] = str(value)`). -/
def strOfMVal : MVal → String
  | MVal.objectId s => s
  | MVal.str s => s
  | MVal.int n => toString n
  | MVal.bool b => if b then "True" else "False"
  | MVal.null => "None"
  | MVal.date u => isoOfUsec ' ' u

/-- Per-value serialization of the non-`_id` branches: `ObjectId`s become their
string form, `datetime`s become `isoformat` strings, everything else is kept. -/
def serializeVal : MVal → MVal
  | MVal.objectId s => MVal.str s
  | MVal.date u => MVal.str (isoOfUsec 'T' u)
  | v => v

/-- `serialize_mongo_doc`: rebuilds the document key by key, mapping `_id` to
`id` via `str()` and serializing the other values.  Dict keys are unique, so
the per-key rebuild is an entrywise map. -/
def serialize_mongo_doc (d : RawDoc) : RawDoc :=
  d.map (fun kv =>
    if kv.1 = "_id" then ("id", MVal.str (strOfMVal kv.2)) else (kv.1, serializeVal kv.2))

/-! ## MongoDB `$regex` with option `i`

MongoDB evaluates `$regex` with PCRE.  The model implements the PCRE core the
comparison with the spec's "substring" reading needs: literal characters, the
`.` wildcard (which, as in PCRE without the `s` option, does not match a
newline), and the `*`/`+`/`?` quantifiers on single atoms, all
case-insensitively for option `i`.  Patterns using the remaining PCRE syntax
(classes, groups, alternation, anchors, escapes, brace quantifiers — i.e.
containing one of `[ ( ) | \ ^ $ {`, or starting a quantifier with nothing to
repeat) fail to compile and are mapped to "no match"; that is an explicit
model boundary, and no theorem below quantifies over such patterns. -/

/-- A regex atom of the modelled subset: a literal (stored lower-cased for the
case-insensitive option) or the `.` wildcard. -/
inductive RAtom where
  | lit (c : Char)
  | anyChar
deriving DecidableEq, Repr

/-- A quantifier on a single atom (`+` is desugared to `a a*` at compile
time, so it does not appear in compiled patterns). -/
inductive RQuant where
  | one
  | opt
  | star
deriving DecidableEq, Repr

/-- A compiled pattern: a sequence of quantified atoms. -/
abbrev RItem := RAtom × RQuant

/-- One atom against one subject character (case-insensitively); PCRE `.`
does not match a newline. -/
def atomMatches : RAtom → Char → Bool
  | RAtom.lit c, c' => c == c'.toLower
  | RAtom.anyChar, c' => !(c' == '\n')

/-- The PCRE characters the model does not compile (they open constructs —
classes, groups, alternation, anchors, escapes, brace quantifiers — outside
the modelled subset). -/
def pcreUnsupported : List Char := ['[', '(', ')', '|', '\\', '^', '$', '{']

/-- Every PCRE metacharacter: a pattern avoiding all of these consists of
literals only, in PCRE and in the model alike. -/
def pcreMetachars : List Char :=
  ['.', '*', '+', '?', '[', ']', '(', ')', '|', '\\', '^', '$', '{', '}']

/-- Compile one pattern character into an atom. -/
def compileAtom (c : Char) : RAtom :=
  if c = '.' then RAtom.anyChar else RAtom.lit c.toLower

/-- Compile a `$regex` pattern over the modelled subset, with a one-atom
lookbehind: `pending` is the atom read at the previous position, not yet
emitted, so that a following `*`/`+`/`?` can attach to it (`a+` desugars to
`a a*`).  `none` for patterns using unsupported constructs or quantifying
nothing ("nothing to repeat"). -/
def compileRegexAux : Option RAtom → List Char → Option (List RItem)
  | none, [] => some []
  | some a, [] => some [(a, RQuant.one)]
  | pending, c :: cs =>
      if c = '*' then
        match pending with
        | some a => (compileRegexAux none cs).map (fun ts => (a, RQuant.star) :: ts)
        | none => none
      else if c = '+' then
        match pending with
        | some a =>
            (compileRegexAux none cs).map (fun ts =>
              (a, RQuant.one) :: (a, RQuant.star) :: ts)
        | none => none
      else if c = '?' then
        match pending with
        | some a => (compileRegexAux none cs).map (fun ts => (a, RQuant.opt) :: ts)
        | none => none
      else if c ∈ pcreUnsupported then none
      else
        match pending with
        | some a =>
            (compileRegexAux (some (compileAtom c)) cs).map (fun ts => (a, RQuant.one) :: ts)
        | none => compileRegexAux (some (compileAtom c)) cs

/-- Compile a whole `$regex` pattern (no pending atom at the start). -/
def compileRegex (p : List Char) : Option (List RItem) := compileRegexAux none p

/-- Can the compiled pattern match the empty string? -/
def matchesEmpty : List RItem → Bool
  | [] => true
  | (_, RQuant.one) :: _ => false
  | (_, RQuant.opt) :: ts => matchesEmpty ts
  | (_, RQuant.star) :: ts => matchesEmpty ts

/-- NFA step: the pattern suffixes reachable from one suffix by consuming
exactly the character `c` (optional/starred atoms may also be skipped). -/
def stepStates (c : Char) : List RItem → List (List RItem)
  | [] => []
  | (a, RQuant.one) :: ts => if atomMatches a c then [ts] else []
  | (a, RQuant.opt) :: ts => (if atomMatches a c then [ts] else []) ++ stepStates c ts
  | (a, RQuant.star) :: ts =>
      (if atomMatches a c then [(a, RQuant.star) :: ts] else []) ++ stepStates c ts

/-- Run the NFA over the subject: the pattern matches some prefix of the
subject iff an accepting state is reached at some point. -/
def reMatchPre : List (List RItem) → List Char → Bool
  | states, [] => states.any matchesEmpty
  | states, c :: cs =>
      states.any matchesEmpty || reMatchPre (states.flatMap (stepStates c)) cs

/-- Unanchored regex search, as `$regex` performs: the compiled pattern
matches at some position of the subject. -/
def reSearch (items : List RItem) : List Char → Bool
  | [] => reMatchPre [items] []
  | c :: cs => reMatchPre [items] (c :: cs) || reSearch items cs

/-- Lower-cased character list of a string. -/
def lowerList (s : String) : List Char := s.toList.map Char.toLower

/-- `p` is a prefix of `s` (character lists). -/
def isSubAt : List Char → List Char → Bool
  | [], _ => true
  | _ :: _, [] => false
  | a :: as, b :: bs => a == b && isSubAt as bs

/-- `p` occurs as a contiguous substring of `s` (character lists). -/
def containsSub (p : List Char) : List Char → Bool
  | [] => isSubAt p []
  | c :: cs => isSubAt p (c :: cs) || containsSub p cs

/-! ## Query construction and evaluation -/

/-- The shape the code gives to the `status` condition: an exact match for the
`failed` bucket, an `$in` list for the other two. -/
inductive StatusCond where
  | eq (s : String)
  | isIn (l : List String)
deriving DecidableEq, Repr

/-- The Mongo query dict built by `get_scan_jobs_by_status` (lines 87–104):
`is_latest` equality, optional `$or` of three case-insensitive `$regex`
clauses, optional `status` condition, optional `tenant_id` equality. -/
structure JobQuery where
  is_latest : Bool
  searchOr : Option String
  statusCond : Option StatusCond
  tenant_id : Option MVal
deriving DecidableEq, Repr

/-- Lines 87–100: the query before the tenant restriction is added. -/
def buildBaseQuery (status_filter search : Option String) : JobQuery :=
  { is_latest := true
    searchOr := if optTruthy search then search else none
    statusCond :=
      if optTruthy status_filter then
        let sf := status_filter.getD ""
        if sf = "failed" then some (StatusCond.eq "failed")
        else if sf = "completed" then some (StatusCond.isIn ["completed"])
        else if sf = "running" then some (StatusCond.isIn ["running"])
        else none
      else none
    tenant_id := none }

/-- Evaluation of the `status` condition against the stored field value;
equality and `$in` over strings, a missing or non-string field matches
neither (no `null` appears in the queried values). -/
def statusMatches : StatusCond → Option MVal → Bool
  | StatusCond.eq s, some (MVal.str v) => v == s
  | StatusCond.isIn l, some (MVal.str v) => l.contains v
  | _, _ => false

/-- The three fields the `$or` search clause covers. -/
def searchFields : List String := ["domain", "tenant_id", "error_message"]

/-- One `{field: {"$regex": p, "$options": "i"}}` clause: a case-insensitive
regex search over the stored string; a missing or non-string field never
matches a regex, and a pattern outside the compiled subset is a model
boundary mapped to no match. -/
def regexFieldMatch (p : String) (d : RawDoc) (k : String) : Bool :=
  match alookup k d, compileRegex p.toList with
  | some (MVal.str s), some items => reSearch items s.toList
  | _, _ => false

/-- The `$or` search clause of the query (lines 88–93). -/
def searchOrMatches (p : String) (d : RawDoc) : Bool :=
  searchFields.any (regexFieldMatch p d)

/-- The spec's wording of the search filter, for comparison with the code's
`$regex` semantics: "a record matches iff the search string (lower-cased) is
a substring of at least one of `domain`, `tenant_id`, `error_message`
(lower-cased)". -/
def searchMatchesSpec (search : String) (d : RawDoc) : Bool :=
  searchFields.any fun k =>
    match alookup k d with
    | some (MVal.str s) => containsSub (lowerList search) (lowerList s)
    | _ => false

/-- Whether a stored document matches the built query (the conjunction Mongo
evaluates). -/
def docMatches (q : JobQuery) (d : RawDoc) : Bool :=
  (alookup "is_latest" d == some (MVal.bool q.is_latest)) &&
  (match q.searchOr with | none => true | some p => searchOrMatches p d) &&
  (match q.statusCond with | none => true | some c => statusMatches c (alookup "status" d)) &&
  (match q.tenant_id with | none => true | some v => alookup "tenant_id" d == some v)

/-! ## Normalization: duration computation and the `ScanJob` pydantic model -/

/-- Lines 111–120: duration is recomputed from the serialized `created_at` and
`completed_at` fields; both must be truthy, both must parse, and the
subtraction must not mix aware and naive datetimes (a `TypeError` swallowed by
the `except`); `int(...total_seconds())` truncates toward zero. -/
def computeDuration (sd : RawDoc) : Option Int :=
  match alookup "created_at" sd, alookup "completed_at" sd with
  | some cv, some cov =>
      if pyTruthy cv && pyTruthy cov then
        match pyParseTs (some cv), pyParseTs (some cov) with
        | some t1, some t2 =>
            if t1.aware = t2.aware then some (Int.tdiv (t2.usec - t1.usec) 1000000)
            else none
        | _, _ => none
      else none
  | _, _ => none

/-- Pydantic validation of a required `str` field fed from `.get(key, dflt)`:
missing takes the default, a string passes, anything else fails. -/
def reqStrD (v : Option MVal) (dflt : String) : Except Unit String :=
  match v with
  | none => Except.ok dflt
  | some (MVal.str s) => Except.ok s
  | some _ => Except.error ()

/-- Pydantic validation of a required `bool` field fed from `.get(key, dflt)`. -/
def reqBoolD (v : Option MVal) (dflt : Bool) : Except Unit Bool :=
  match v with
  | none => Except.ok dflt
  | some (MVal.bool b) => Except.ok b
  | some _ => Except.error ()

/-- Pydantic validation of an `Optional[datetime]` field: missing or `None`
gives `None`, a string must parse as a datetime, anything else fails. -/
def reqOptDT (v : Option MVal) : Except Unit (Option PyDT) :=
  match v with
  | none => Except.ok none
  | some MVal.null => Except.ok none
  | some (MVal.str s) =>
      match pydanticParseDT s with
      | some t => Except.ok (some t)
      | none => Except.error ()
  | some _ => Except.error ()

/-- Pydantic validation of an `Optional[str]` field. -/
def reqOptStr (v : Option MVal) : Except Unit (Option String) :=
  match v with
  | none => Except.ok none
  | some MVal.null => Except.ok none
  | some (MVal.str s) => Except.ok (some s)
  | some _ => Except.error ()

/-- Pydantic validation of an `Optional[int]` field. -/
def reqOptInt (v : Option MVal) : Except Unit (Option Int) :=
  match v with
  | none => Except.ok none
  | some MVal.null => Except.ok none
  | some (MVal.int n) => Except.ok (some n)
  | some _ => Except.error ()

/-- The `ScanJob` pydantic model (lines 14–26). -/
structure ScanJob where
  id : String
  database : String
  collection : String
  status : String
  tenant_id : String
  domain : String
  is_latest : Bool
  created_at : Option PyDT
  completed_at : Option PyDT
  error_message : Option String
  duration : Option Int
  documents_processed : Option Int
deriving DecidableEq, Repr

/-- Lines 122–135: constructing the `ScanJob` from the serialized document.
`database` is the resolved tenant's `db_name` (the `else "unknown_db"` branch
is unreachable on this path: a `None` tenant already raised at line 81),
`collection` is the fixed collection name, and `duration` is the recomputed
value — the stored `duration` field is never read.  Any pydantic validation
failure raises inside the `try`, aborting the loop. -/
def buildScanJob (db_name : String) (sd : RawDoc) : Except Unit ScanJob := do
  let idv ← reqStrD (alookup "id" sd) ""
  let statusv ← reqStrD (alookup "status" sd) "unknown"
  let latestv ← reqBoolD (alookup "is_latest" sd) false
  let tenantv ← reqStrD (alookup "tenant_id" sd) ""
  let domainv ← reqStrD (alookup "domain" sd) ""
  let createdv ← reqOptDT (alookup "created_at" sd)
  let completedv ← reqOptDT (alookup "completed_at" sd)
  let errv ← reqOptStr (alookup "error_message" sd)
  let dpv ← reqOptInt (alookup "documents_processed" sd)
  Except.ok
    { id := idv
      database := db_name
      collection := "scan_jobs_asset_discovery"
      status := statusv
      tenant_id := tenantv
      domain := domainv
      is_latest := latestv
      created_at := createdv
      completed_at := completedv
      error_message := errv
      duration := computeDuration sd
      documents_processed := dpv }

/-- The per-document loop body (lines 108–136): serialize, skip a falsy
(empty) serialized document, build the `ScanJob`; a validation failure raises
inside the `try`, so the loop stops and the jobs accumulated so far survive. -/
def processDocs (db_name : String) : List RawDoc → List ScanJob
  | [] => []
  | d :: rest =>
      if (serialize_mongo_doc d).isEmpty then processDocs db_name rest
      else
        match buildScanJob db_name (serialize_mongo_doc d) with
        | Except.ok job => job :: processDocs db_name rest
        | Except.error _ => []

/-! ## The sort `("created_at", -1)` -/

/-- BSON type-bracket rank of an (optional) field value for sorting; a missing
field sorts with `null`, the lowest bracket. -/
def mvalRank : Option MVal → Nat
  | none => 0
  | some MVal.null => 0
  | some (MVal.int _) => 1
  | some (MVal.str _) => 2
  | some (MVal.objectId _) => 3
  | some (MVal.bool _) => 4
  | some (MVal.date _) => 5

/-- BSON comparison of two (optional) field values: by type bracket, then by
value within a bracket. -/
def mongoKeyLE (a b : Option MVal) : Bool :=
  if mvalRank a = mvalRank b then
    match a, b with
    | some (MVal.int x), some (MVal.int y) => decide (x ≤ y)
    | some (MVal.str x), some (MVal.str y) => decide (x ≤ y)
    | some (MVal.objectId x), some (MVal.objectId y) => decide (x ≤ y)
    | some (MVal.bool x), some (MVal.bool y) => !x || y
    | some (MVal.date x), some (MVal.date y) => decide (x ≤ y)
    | _, _ => true
  else decide (mvalRank a < mvalRank b)

/-- Descending order on documents by their `created_at` field — most recent
first, missing/null values last, as `sort("created_at", -1)` produces. -/
def createdDesc (d1 d2 : RawDoc) : Prop :=
  mongoKeyLE (alookup "created_at" d2) (alookup "created_at" d1) = true

instance : DecidableRel createdDesc := fun d1 d2 => by
  unfold createdDesc
  infer_instance

/-! ## The store and `get_scan_jobs_by_status` -/

/-- The external MongoDB state: the tenant directory (`asd_remus_qc.tenants`),
the per-database `scan_jobs_asset_discovery` collections, and fault flags
modelling backing-store access failures on either. -/
structure Store where
  tenants : List RawDoc
  tenantsFault : Bool
  jobs : List (String × List RawDoc)
  jobsFault : Bool

/-- The `scan_jobs_asset_discovery` collection of a database; Mongo treats an
unknown database/collection as empty. -/
def lookupJobs (store : Store) (db_name : String) : List RawDoc :=
  (alookup db_name store.jobs).getD []

/-- `tenant_collection.find_one({"name": tenant_filter})`. -/
def findTenantByName (tenants : List RawDoc) (name : String) : Option RawDoc :=
  tenants.find? (fun d => decide (alookup "name" d = some (MVal.str name)))

/-- Line 77: the tenant is looked up only when `tenant_filter` is truthy. -/
def tenantOf (store : Store) (tenant_filter : Option String) : Option RawDoc :=
  if optTruthy tenant_filter then findTenantByName store.tenants (tenant_filter.getD "")
  else none

/-- `collection.count_documents(query)` (line 143), when the collection is
reachable: the number of stored documents matching the query. -/
def countDocs (store : Store) (db_name : String) (q : JobQuery) : Nat :=
  ((lookupJobs store db_name).filter (fun d => docMatches q d)).length

/-- Line 107's cursor, as the server executes it: sort by `created_at`
descending, then skip, then limit (`limit(0)` means no limit). -/
def fetchDocs (store : Store) (db_name : String) (q : JobQuery) (skip lim : Nat) :
    List RawDoc :=
  let sorted :=
    List.insertionSort createdDesc ((lookupJobs store db_name).filter (fun d => docMatches q d))
  let windowed := sorted.drop skip
  if lim = 0 then windowed else windowed.take lim

/-- Lines 107–136 once `collection` and `query` are bound: a negative skip
raises `ValueError` and a store fault raises at cursor iteration — both are
caught by the `except`, leaving the locals bound and no jobs accumulated.
A negative `page_size` reaches the server as a hard limit of its magnitude. -/
def runFetch (store : Store) (db_name : String) (q : JobQuery) (page page_size : Int) :
    Option (String × JobQuery) × List ScanJob :=
  if (page - 1) * page_size < 0 then (some (db_name, q), [])
  else if store.jobsFault then (some (db_name, q), [])
  else
    (some (db_name, q),
     processDocs db_name
       (fetchDocs store db_name q ((page - 1) * page_size).toNat page_size.natAbs))

/-- The `try` block (lines 80–139).  The first component is the state of the
locals `collection`/`query` after the block: `none` when the block raised
before line 87 (subscripting a `None` tenant, a missing `db_name`, a non-string
database name), `some` once both are bound — even if a later statement raised
and was caught.  The second component is `all_jobs`. -/
def tryBody (store : Store) (tenant : Option RawDoc)
    (status_filter search tenant_filter : Option String) (page page_size : Int) :
    Option (String × JobQuery) × List ScanJob :=
  match tenant with
  | none => (none, [])
  | some t =>
    match alookup "db_name" t with
    | none => (none, [])
    | some (MVal.str db_name) =>
        let q0 := buildBaseQuery status_filter search
        if optTruthy tenant_filter then
          match alookup "_id" t with
          | none => (some (db_name, q0), [])
          | some idv => runFetch store db_name { q0 with tenant_id := some idv } page page_size
        else runFetch store db_name q0 page page_size
    | some _ => (none, [])

/-- The exceptions that can escape the embedded operations. -/
inductive PyErr where
  | pymongoError
  | unboundLocalError
  | zeroDivisionError
  | attributeError
deriving DecidableEq, Repr

/-- The page envelope (lines 147–153). -/
structure Envelope where
  total : Nat
  items : List ScanJob
  page : Int
  page_size : Int
  pages : Int
deriving DecidableEq, Repr

/-- Lines 147–153: the envelope literal; `pages` is `//`-based ceiling
division. -/
def mkEnvelope (total : Nat) (items : List ScanJob) (page page_size : Int) : Envelope :=
  { total := total
    items := items
    page := page
    page_size := page_size
    pages := Int.fdiv ((total : Int) + page_size - 1) page_size }

/-- `get_scan_jobs_by_status` (lines 65–153).  The Python defaults are
`page=1, page_size=10`; call sites pass them explicitly here.  Line 143 runs
outside the `try`: if the block raised before binding `collection`/`query`,
it raises `UnboundLocalError`; if the store is faulty the count raises too;
`page_size == 0` makes line 152 raise `ZeroDivisionError`. -/
def get_scan_jobs_by_status (store : Store)
    (status_filter search tenant_filter : Option String) (page page_size : Int) :
    Except PyErr Envelope :=
  if optTruthy tenant_filter && store.tenantsFault then Except.error PyErr.pymongoError
  else
    match tryBody store (tenantOf store tenant_filter) status_filter search tenant_filter
        page page_size with
    | (none, _) => Except.error PyErr.unboundLocalError
    | (some (db_name, query), all_jobs) =>
        if store.jobsFault then Except.error PyErr.pymongoError
        else if page_size = 0 then Except.error PyErr.zeroDivisionError
        else Except.ok (mkEnvelope (countDocs store db_name query) all_jobs page page_size)

/-! ## The restart endpoints -/

/-- The `/api/restart-all-failed` response model. -/
structure RestartResponse where
  success : Bool
  message : String
  restarted_jobs : Nat
deriving DecidableEq, Repr

/-- `restart_scan` (lines 155–162): one outbound POST to a fixed URL, `True`
iff it returned HTTP 200; any transport failure yields `False`.  The outcome
is a parameter (`job_id` is not even sent). -/
def restart_scan (postReturns200 : Bool) (_job_id : String) : Bool :=
  postReturns200

/-- The keys of the dict `get_scan_jobs_by_status` returns; `if not jobs:`
tests the truthiness of that dict, which always has these five keys. -/
def envelopeKeys : List String := ["total", "items", "page", "page_size", "pages"]

/-- `restart_all_failed_jobs` (lines 1542–1564).  It calls
`get_scan_jobs_by_status("failed")` with no tenant (so any exception there
propagates), tests the truthiness of the returned dict (never empty: five
keys), and then builds `[restart_scan(job.id) for job in jobs]` — iterating
the dict's string keys, so `job.id` raises `AttributeError` before any
outbound call is issued. -/
def restart_all_failed_jobs (store : Store) : Except PyErr RestartResponse :=
  match get_scan_jobs_by_status store (some "failed") none none 1 10 with
  | Except.error e => Except.error e
  | Except.ok _env =>
      if envelopeKeys.isEmpty then
        Except.ok { success := true, message := "No failed jobs to restart", restarted_jobs := 0 }
      else Except.error PyErr.attributeError

deriving instance DecidableEq for Except

/-! ## Helper lemmas -/

/-- Inversion of a successful listing call: the locals were bound to some
`db_name`/`query`, the store was reachable, `page_size` was nonzero, and the
envelope is the line 147–153 literal over the count and the accumulated jobs. -/
theorem get_scan_jobs_ok_inv {store : Store}
    {status_filter search tenant_filter : Option String} {page page_size : Int}
    {env : Envelope}
    (h : get_scan_jobs_by_status store status_filter search tenant_filter page page_size =
      Except.ok env) :
    ∃ db_name query all_jobs,
      tryBody store (tenantOf store tenant_filter) status_filter search tenant_filter
          page page_size = (some (db_name, query), all_jobs) ∧
      store.jobsFault = false ∧ page_size ≠ 0 ∧
      env = mkEnvelope (countDocs store db_name query) all_jobs page page_size := by
  unfold get_scan_jobs_by_status at h
  split at h
  · exact absurd h (by simp)
  · split at h
    · exact absurd h (by simp)
    · rename_i heq
      split at h
      · exact absurd h (by simp)
      · split at h
        · exact absurd h (by simp)
        · rename_i db_name query all_jobs hfault hps
          refine ⟨db_name, query, all_jobs, heq, ?_, hps, ?_⟩
          · simpa using hfault
          · exact (Except.ok.inj h).symm

theorem except_bind_ok {ε α β : Type} (a : α) (f : α → Except ε β) :
    (Except.ok a : Except ε α) >>= f = f a := rfl

theorem except_bind_error {ε α β : Type} (e : ε) (f : α → Except ε β) :
    (Except.error e : Except ε α) >>= f = Except.error e := rfl

/-- Inversion of a successful `ScanJob` construction: every field validator
succeeded on its looked-up value and produced the corresponding field, and
`duration`/`database`/`collection` are as constructed. -/
theorem buildScanJob_ok_inv {db : String} {sd : RawDoc} {j : ScanJob}
    (h : buildScanJob db sd = Except.ok j) :
    reqStrD (alookup "id" sd) "" = Except.ok j.id ∧
    reqStrD (alookup "status" sd) "unknown" = Except.ok j.status ∧
    reqBoolD (alookup "is_latest" sd) false = Except.ok j.is_latest ∧
    reqStrD (alookup "tenant_id" sd) "" = Except.ok j.tenant_id ∧
    reqStrD (alookup "domain" sd) "" = Except.ok j.domain ∧
    reqOptDT (alookup "created_at" sd) = Except.ok j.created_at ∧
    reqOptDT (alookup "completed_at" sd) = Except.ok j.completed_at ∧
    reqOptStr (alookup "error_message" sd) = Except.ok j.error_message ∧
    reqOptInt (alookup "documents_processed" sd) = Except.ok j.documents_processed ∧
    j.duration = computeDuration sd ∧ j.database = db ∧
    j.collection = "scan_jobs_asset_discovery" := by
  unfold buildScanJob at h
  cases h1 : reqStrD (alookup "id" sd) "" <;> rw [h1] at h
  · rw [except_bind_error] at h; exact nomatch h
  rw [except_bind_ok] at h
  cases h2 : reqStrD (alookup "status" sd) "unknown" <;> rw [h2] at h
  · rw [except_bind_error] at h; exact nomatch h
  rw [except_bind_ok] at h
  cases h3 : reqBoolD (alookup "is_latest" sd) false <;> rw [h3] at h
  · rw [except_bind_error] at h; exact nomatch h
  rw [except_bind_ok] at h
  cases h4 : reqStrD (alookup "tenant_id" sd) "" <;> rw [h4] at h
  · rw [except_bind_error] at h; exact nomatch h
  rw [except_bind_ok] at h
  cases h5 : reqStrD (alookup "domain" sd) "" <;> rw [h5] at h
  · rw [except_bind_error] at h; exact nomatch h
  rw [except_bind_ok] at h
  cases h6 : reqOptDT (alookup "created_at" sd) <;> rw [h6] at h
  · rw [except_bind_error] at h; exact nomatch h
  rw [except_bind_ok] at h
  cases h7 : reqOptDT (alookup "completed_at" sd) <;> rw [h7] at h
  · rw [except_bind_error] at h; exact nomatch h
  rw [except_bind_ok] at h
  cases h8 : reqOptStr (alookup "error_message" sd) <;> rw [h8] at h
  · rw [except_bind_error] at h; exact nomatch h
  rw [except_bind_ok] at h
  cases h9 : reqOptInt (alookup "documents_processed" sd) <;> rw [h9] at h
  · rw [except_bind_error] at h; exact nomatch h
  rw [except_bind_ok] at h
  obtain rfl := (Except.ok.inj h).symm
  exact ⟨rfl, rfl, rfl, rfl, rfl, rfl, rfl, rfl, rfl, rfl, rfl, rfl⟩

theorem runFetch_fst (store : Store) (db_name : String) (q : JobQuery) (page page_size : Int) :
    (runFetch store db_name q page page_size).1 = some (db_name, q) := by
  unfold runFetch
  split
  · rfl
  · split <;> rfl

/-- The state of the `collection`/`query` locals after the `try` block, as a
function of the resolved tenant and the parameters alone (it does not depend
on `page`/`page_size`). -/
def boundOf (t : Option RawDoc) (status_filter search tenant_filter : Option String) :
    Option (String × JobQuery) :=
  match t with
  | none => none
  | some td =>
    match alookup "db_name" td with
    | none => none
    | some (MVal.str db_name) =>
        let q0 := buildBaseQuery status_filter search
        if optTruthy tenant_filter then
          match alookup "_id" td with
          | none => some (db_name, q0)
          | some idv => some (db_name, { q0 with tenant_id := some idv })
        else some (db_name, q0)
    | some _ => none

theorem tryBody_fst (store : Store) (t : Option RawDoc)
    (status_filter search tenant_filter : Option String) (page page_size : Int) :
    (tryBody store t status_filter search tenant_filter page page_size).1 =
      boundOf t status_filter search tenant_filter := by
  cases t with
  | none => rfl
  | some td =>
    simp only [tryBody, boundOf]
    cases hdb : alookup "db_name" td with
    | none => rfl
    | some v =>
      cases v with
      | str db_name =>
          by_cases htf : optTruthy tenant_filter = true
          · simp only [htf, if_true]
            cases hid : alookup "_id" td with
            | none => rfl
            | some idv => simp [runFetch_fst]
          · simp only [Bool.not_eq_true] at htf
            simp [htf, runFetch_fst]
      | objectId s => rfl
      | date u => rfl
      | int n => rfl
      | bool b => rfl
      | null => rfl

/-- The `status` part of the bound query is exactly what `buildBaseQuery`
constructed, whatever the tenant restriction did. -/
theorem boundOf_statusCond {t : Option RawDoc}
    {status_filter search tenant_filter : Option String} {db_name : String} {q : JobQuery}
    (h : boundOf t status_filter search tenant_filter = some (db_name, q)) :
    q.statusCond = (buildBaseQuery status_filter search).statusCond := by
  cases t with
  | none => exact nomatch h
  | some td =>
    simp only [boundOf] at h
    cases hdb : alookup "db_name" td <;> rw [hdb] at h
    · exact nomatch h
    rename_i v
    cases v
    case str db_name' =>
      simp only [] at h
      split at h
      · cases hid : alookup "_id" td <;> rw [hid] at h <;> simp only [] at h <;>
          · obtain ⟨rfl, rfl⟩ := Prod.mk.inj (Option.some.inj h); rfl
      · obtain ⟨rfl, rfl⟩ := Prod.mk.inj (Option.some.inj h); rfl
    all_goals exact nomatch h

theorem runFetch_snd_empty (store : Store) (db_name : String) (q : JobQuery)
    (page page_size : Int)
    (hcnt : countDocs store db_name q ≤ ((page - 1) * page_size).toNat) :
    (runFetch store db_name q page page_size).2 = [] := by
  unfold runFetch
  split
  · rfl
  split
  · rfl
  have hfetch : fetchDocs store db_name q ((page - 1) * page_size).toNat page_size.natAbs = [] := by
    unfold fetchDocs
    have hlen :
        (List.insertionSort createdDesc
          ((lookupJobs store db_name).filter (fun d => docMatches q d))).length =
          countDocs store db_name q :=
      (List.perm_insertionSort createdDesc _).length_eq
    have hdrop :
        (List.insertionSort createdDesc
          ((lookupJobs store db_name).filter (fun d => docMatches q d))).drop
            ((page - 1) * page_size).toNat = [] :=
      List.drop_eq_nil_of_le (by rw [hlen]; exact hcnt)
    simp only [hdrop]
    split <;> simp
  simp only [hfetch]
  rfl

theorem tryBody_snd_empty (store : Store) (t : Option RawDoc)
    (status_filter search tenant_filter : Option String) (page page_size : Int)
    (db_name : String) (q : JobQuery)
    (hb : (tryBody store t status_filter search tenant_filter page page_size).1 =
      some (db_name, q))
    (hcnt : countDocs store db_name q ≤ ((page - 1) * page_size).toNat) :
    (tryBody store t status_filter search tenant_filter page page_size).2 = [] := by
  cases t with
  | none => rfl
  | some td =>
    simp only [tryBody] at hb ⊢
    cases hdb : alookup "db_name" td with
    | none => rfl
    | some v =>
      rw [hdb] at hb
      cases v with
      | str db_name' =>
        simp only [] at hb ⊢
        by_cases htf : optTruthy tenant_filter = true
        · rw [if_pos htf] at hb ⊢
          cases hid : alookup "_id" td with
          | none => rfl
          | some idv =>
            rw [hid] at hb
            rw [runFetch_fst] at hb
            obtain ⟨rfl, rfl⟩ := Prod.mk.inj (Option.some.inj hb)
            exact runFetch_snd_empty _ _ _ _ _ hcnt
        · rw [if_neg htf] at hb ⊢
          rw [runFetch_fst] at hb
          obtain ⟨rfl, rfl⟩ := Prod.mk.inj (Option.some.inj hb)
          exact runFetch_snd_empty _ _ _ _ _ hcnt
      | objectId s => rfl
      | date u => rfl
      | int n => rfl
      | bool b => rfl
      | null => rfl

/-- A job in the accumulated list comes from some fetched document whose
serialized form built successfully. -/
theorem mem_processDocs {db_name : String} {docs : List RawDoc} {j : ScanJob}
    (h : j ∈ processDocs db_name docs) :
    ∃ d ∈ docs, buildScanJob db_name (serialize_mongo_doc d) = Except.ok j := by
  induction docs with
  | nil => exact absurd h (by simp [processDocs])
  | cons d rest ih =>
    unfold processDocs at h
    split at h
    · obtain ⟨d', hd', hb⟩ := ih h
      exact ⟨d', List.mem_cons_of_mem _ hd', hb⟩
    · split at h
      · rename_i job hbuild
        rcases List.mem_cons.mp h with rfl | hmem
        · exact ⟨d, List.mem_cons_self _ _, hbuild⟩
        · obtain ⟨d', hd', hb⟩ := ih hmem
          exact ⟨d', List.mem_cons_of_mem _ hd', hb⟩
      · exact absurd h (by simp)

/-- Every fetched document matches the query against the stored collection. -/
theorem mem_fetchDocs {store : Store} {db_name : String} {q : JobQuery} {skip lim : Nat}
    {d : RawDoc} (h : d ∈ fetchDocs store db_name q skip lim) :
    d ∈ lookupJobs store db_name ∧ docMatches q d = true := by
  unfold fetchDocs at h
  have hs : d ∈ List.insertionSort createdDesc
      ((lookupJobs store db_name).filter (fun d => docMatches q d)) := by
    split at h
    · exact (List.drop_sublist _ _).subset h
    · exact (List.drop_sublist _ _).subset ((List.take_sublist _ _).subset h)
  have hf := (List.perm_insertionSort createdDesc _).subset hs
  exact List.mem_filter.mp hf

theorem runFetch_snd_mem {store : Store} {db_name : String} {q : JobQuery}
    {page page_size : Int} {j : ScanJob}
    (h : j ∈ (runFetch store db_name q page page_size).2) :
    ∃ d, d ∈ lookupJobs store db_name ∧ docMatches q d = true ∧
      buildScanJob db_name (serialize_mongo_doc d) = Except.ok j := by
  unfold runFetch at h
  split at h
  · exact absurd h (by simp)
  split at h
  · exact absurd h (by simp)
  obtain ⟨d, hd, hb⟩ := mem_processDocs h
  obtain ⟨hmem, hmatch⟩ := mem_fetchDocs hd
  exact ⟨d, hmem, hmatch, hb⟩

/-- A job produced by the `try` block comes from a stored document matching
the bound query. -/
theorem tryBody_snd_mem {store : Store} {t : Option RawDoc}
    {status_filter search tenant_filter : Option String} {page page_size : Int}
    {db_name : String} {q : JobQuery} {j : ScanJob}
    (hb : (tryBody store t status_filter search tenant_filter page page_size).1 =
      some (db_name, q))
    (h : j ∈ (tryBody store t status_filter search tenant_filter page page_size).2) :
    ∃ d, d ∈ lookupJobs store db_name ∧ docMatches q d = true ∧
      buildScanJob db_name (serialize_mongo_doc d) = Except.ok j := by
  cases t with
  | none => exact absurd h (by simp [tryBody])
  | some td =>
    simp only [tryBody] at hb h
    cases hdb : alookup "db_name" td with
    | none => rw [hdb] at h; exact absurd h (by simp)
    | some v =>
      rw [hdb] at hb h
      cases v with
      | str db_name' =>
        simp only [] at hb h
        by_cases htf : optTruthy tenant_filter = true
        · rw [if_pos htf] at hb h
          cases hid : alookup "_id" td with
          | none => rw [hid] at h; exact absurd h (by simp)
          | some idv =>
            rw [hid] at hb h
            rw [runFetch_fst] at hb
            obtain ⟨rfl, rfl⟩ := Prod.mk.inj (Option.some.inj hb)
            exact runFetch_snd_mem h
        · rw [if_neg htf] at hb h
          rw [runFetch_fst] at hb
          obtain ⟨rfl, rfl⟩ := Prod.mk.inj (Option.some.inj hb)
          exact runFetch_snd_mem h
      | objectId s => exact absurd h (by simp)
      | date u => exact absurd h (by simp)
      | int n => exact absurd h (by simp)
      | bool b => exact absurd h (by simp)
      | null => exact absurd h (by simp)

/-- Serialization keeps every key other than `_id`/`id` in place, serializing
its value. -/
theorem alookup_serialize {d : RawDoc} {k : String} (h1 : k ≠ "id") (h2 : k ≠ "_id") :
    alookup k (serialize_mongo_doc d) = (alookup k d).map serializeVal := by
  induction d with
  | nil => rfl
  | cons kv rest ih =>
    have hser : serialize_mongo_doc (kv :: rest) =
        (if kv.1 = "_id" then ("id", MVal.str (strOfMVal kv.2))
         else (kv.1, serializeVal kv.2)) :: serialize_mongo_doc rest := rfl
    rw [hser]
    by_cases hid : kv.1 = "_id"
    · rw [if_pos hid]
      show (if "id" = k then some (MVal.str (strOfMVal kv.2))
            else alookup k (serialize_mongo_doc rest)) = _
      rw [if_neg (fun hc => h1 hc.symm)]
      show _ = Option.map serializeVal (if kv.1 = k then some kv.2 else alookup k rest)
      rw [if_neg (fun hc => h2 (hc.symm.trans hid)), ih]
    · rw [if_neg hid]
      show (if kv.1 = k then some (serializeVal kv.2)
            else alookup k (serialize_mongo_doc rest)) =
          Option.map serializeVal (if kv.1 = k then some kv.2 else alookup k rest)
      by_cases hk : kv.1 = k
      · rw [if_pos hk, if_pos hk]; rfl
      · rw [if_neg hk, if_neg hk, ih]

/-- Dropping entries with a different key does not change a lookup. -/
theorem alookup_filter_ne {α : Type} {k dk : String} (h : k ≠ dk) (l : List (String × α)) :
    alookup k (l.filter fun kv => kv.1 != dk) = alookup k l := by
  induction l with
  | nil => rfl
  | cons kv rest ih =>
    by_cases hdk : kv.1 = dk
    · rw [List.filter_cons_of_neg (by simp [hdk])]
      rw [ih]
      show _ = (if kv.1 = k then some kv.2 else alookup k rest)
      rw [if_neg (fun hc => h (hc.symm.trans hdk))]
    · rw [List.filter_cons_of_pos (by simp [hdk])]
      show (if kv.1 = k then some kv.2
            else alookup k (List.filter (fun kv => kv.1 != dk) rest)) =
          (if kv.1 = k then some kv.2 else alookup k rest)
      by_cases hk : kv.1 = k
      · rw [if_pos hk, if_pos hk]
      · rw [if_neg hk, if_neg hk, ih]

/-- A value the duration computation can parse is truthy (the parse only
succeeds on a nonempty string). -/
theorem pyParseTs_some_truthy {v : MVal} {t : PyDT} (h : pyParseTs (some v) = some t) :
    pyTruthy v = true := by
  cases v with
  | str s =>
    simp only [pyTruthy, Bool.not_eq_true']
    by_contra hc
    simp only [Bool.not_eq_false, beq_iff_eq] at hc
    subst hc
    exact nomatch h
  | objectId s => exact nomatch h
  | date u => exact nomatch h
  | int n => exact nomatch h
  | bool b => exact nomatch h
  | null => exact nomatch h

/-- The compiled form of an all-literal pattern. -/
def litItems (p : List Char) : List RItem :=
  p.map (fun c => (RAtom.lit c.toLower, RQuant.one))

/-- A pattern free of every PCRE metacharacter compiles to plain literals. -/
theorem compileRegex_lit {p : List Char} (h : ∀ c ∈ p, c ∉ pcreMetachars) :
    compileRegex p = some (litItems p) := by
  have main : ∀ q : List Char, (∀ c ∈ q, c ∉ pcreMetachars) →
      compileRegexAux none q = some (litItems q) ∧
      ∀ a, compileRegexAux (some a) q = some ((a, RQuant.one) :: litItems q) := by
    intro q
    induction q with
    | nil => exact fun _ => ⟨rfl, fun a => rfl⟩
    | cons c cs ih =>
      intro hq
      have hc : c ∉ pcreMetachars := hq c (List.mem_cons_self _ _)
      have hcs := (ih (fun x hx => hq x (List.mem_cons_of_mem _ hx)))
      have h1 : ¬ (c = '*') := fun hx => hc (by rw [hx]; decide)
      have h2 : ¬ (c = '+') := fun hx => hc (by rw [hx]; decide)
      have h3 : ¬ (c = '?') := fun hx => hc (by rw [hx]; decide)
      have h4 : ¬ (c ∈ pcreUnsupported) := fun hx => hc (by
        revert hx
        show c ∈ pcreUnsupported → c ∈ pcreMetachars
        intro hx
        simp only [pcreUnsupported, List.mem_cons, List.not_mem_nil, or_false] at hx
        rcases hx with rfl | rfl | rfl | rfl | rfl | rfl | rfl | rfl <;> decide)
      have hatom : compileAtom c = RAtom.lit c.toLower := by
        unfold compileAtom
        rw [if_neg (fun hx => hc (by rw [hx]; decide))]
      constructor
      · show (if c = '*' then _ else if c = '+' then _ else if c = '?' then _
          else if c ∈ pcreUnsupported then none
          else _) = some (litItems (c :: cs))
        rw [if_neg h1, if_neg h2, if_neg h3, if_neg h4]
        show compileRegexAux (some (compileAtom c)) cs = some (litItems (c :: cs))
        rw [hatom, hcs.2 (RAtom.lit c.toLower)]
        rfl
      · intro a
        show (if c = '*' then _ else if c = '+' then _ else if c = '?' then _
          else if c ∈ pcreUnsupported then none
          else _) = some ((a, RQuant.one) :: litItems (c :: cs))
        rw [if_neg h1, if_neg h2, if_neg h3, if_neg h4]
        show (compileRegexAux (some (compileAtom c)) cs).map
            (fun ts => (a, RQuant.one) :: ts) = some ((a, RQuant.one) :: litItems (c :: cs))
        rw [hatom, hcs.2 (RAtom.lit c.toLower)]
        rfl
  exact (main p h).1

/-- With no live states the run never accepts. -/
theorem reMatchPre_nil (s : List Char) : reMatchPre [] s = false := by
  induction s with
  | nil => rfl
  | cons c cs ih =>
      show (false || reMatchPre ([].flatMap (stepStates c)) cs) = false
      rw [Bool.false_or]
      exact ih

/-- Prefix matching of an all-literal pattern is a case-insensitive prefix
test. -/
theorem reMatchPre_lit (p s : List Char) :
    reMatchPre [litItems p] s = isSubAt (p.map Char.toLower) (s.map Char.toLower) := by
  induction s generalizing p with
  | nil => cases p <;> rfl
  | cons c cs ih =>
    cases p with
    | nil => rfl
    | cons x xs =>
      show ((matchesEmpty (litItems (x :: xs)) || false) ||
          reMatchPre (stepStates c (litItems (x :: xs)) ++ []) cs) =
        ((x.toLower == c.toLower) && isSubAt (xs.map Char.toLower) (cs.map Char.toLower))
      have hme : matchesEmpty (litItems (x :: xs)) = false := rfl
      have hstep : stepStates c (litItems (x :: xs)) =
          if (x.toLower == c.toLower) = true then [litItems xs] else [] := rfl
      rw [hme, Bool.false_or, Bool.false_or, List.append_nil, hstep]
      by_cases hx : (x.toLower == c.toLower) = true
      · rw [if_pos hx, hx, Bool.true_and]
        exact ih xs
      · rw [if_neg hx, reMatchPre_nil]
        have hxf : (x.toLower == c.toLower) = false := by
          revert hx
          cases x.toLower == c.toLower <;> simp
        rw [hxf, Bool.false_and]

/-- Regex search with an all-literal pattern is a case-insensitive substring
test. -/
theorem reSearch_lit (p s : List Char) :
    reSearch (litItems p) s = containsSub (p.map Char.toLower) (s.map Char.toLower) := by
  induction s with
  | nil =>
    show reMatchPre [litItems p] [] = isSubAt (p.map Char.toLower) []
    have := reMatchPre_lit p []
    simpa using this
  | cons c cs ih =>
    show (reMatchPre [litItems p] (c :: cs) || reSearch (litItems p) cs) =
      containsSub (p.map Char.toLower) ((c :: cs).map Char.toLower)
    rw [reMatchPre_lit, ih]
    rfl

/-- The quotient/remainder characterization of `//`-based ceiling division:
for a positive divisor it is the rational ceiling. -/
theorem ediv_ceil_eq (t ps : Int) (hps : 0 < ps) :
    (t + ps - 1) / ps = ⌈(t : ℚ) / (ps : ℚ)⌉ := by
  have hps' : (0 : ℚ) < (ps : ℚ) := by exact_mod_cast hps
  have hmod := Int.ediv_add_emod (t + ps - 1) ps
  have hr0 : 0 ≤ (t + ps - 1) % ps := Int.emod_nonneg _ (ne_of_gt hps)
  have hr1 : (t + ps - 1) % ps < ps := Int.emod_lt_of_pos _ hps
  symm
  rw [Int.ceil_eq_iff]
  constructor
  · rw [lt_div_iff₀ hps']
    have hint : ((t + ps - 1) / ps - 1) * ps < t := by nlinarith
    exact_mod_cast hint
  · rw [div_le_iff₀ hps']
    have hint : t ≤ ((t + ps - 1) / ps) * ps := by nlinarith
    exact_mod_cast hint

/-! ## Concrete instances used by the claims -/

/-- A tenant directory entry. -/
def tenantAcme : RawDoc :=
  [("_id", MVal.objectId "t0"), ("name", MVal.str "acme"), ("db_name", MVal.str "db1")]

/-- A latest failed scan job of that tenant. -/
def jobFailedRaw : RawDoc :=
  [("_id", MVal.objectId "j1"), ("is_latest", MVal.bool true), ("status", MVal.str "failed"),
   ("tenant_id", MVal.objectId "t0"), ("domain", MVal.str "example.com")]

/-- A healthy store holding exactly that one failed job. -/
def storeOneJob : Store :=
  { tenants := [tenantAcme], tenantsFault := false, jobs := [("db1", [jobFailedRaw])],
    jobsFault := false }

/-- A healthy store whose job collection is empty (zero failed jobs). -/
def storeNoJobs : Store :=
  { tenants := [tenantAcme], tenantsFault := false, jobs := [("db1", [])], jobsFault := false }

/-- A store whose job collections are unreachable (backing-store failure). -/
def storeFaulty : Store :=
  { tenants := [tenantAcme], tenantsFault := false, jobs := [("db1", [jobFailedRaw])],
    jobsFault := true }

/-! ## The claims -/

/-- Claim C1: the claim says a listing call whose tenant name matches no tenant
record returns an empty page envelope (total 0, items empty) rather than
raising.  The code violates this: `find_one` yields `None`, line 81 raises
`TypeError` inside the `try` before `collection`/`query` are bound, and line
143 then raises `UnboundLocalError`, which propagates to the caller.  This
theorem evaluates the embedded operation at such an input. -/
theorem c1_unknown_tenant_raises :
    get_scan_jobs_by_status storeOneJob (some "failed") none (some "ghost") 1 10 =
      Except.error PyErr.unboundLocalError := rfl

/-- Claim C2: the claim says backing-store failures during query execution are
caught at the query boundary and degrade to zero results with a well-formed
envelope.  The code violates this: the cursor failure inside the `try` is
caught, but `collection.count_documents(query)` at line 143 runs outside the
`try` on the same unreachable store and its exception propagates.  This
theorem evaluates the embedded operation on a faulty store. -/
theorem c2_store_failure_raises :
    get_scan_jobs_by_status storeFaulty (some "failed") none (some "acme") 1 10 =
      Except.error PyErr.pymongoError := rfl

/-- Claim C3: the claim says `restart_all_failed_jobs` with zero failed jobs
returns `{success: true, restarted_jobs: 0}` without any outbound call.  The
code violates this: it calls `get_scan_jobs_by_status("failed")` with no
tenant, so the tenant lookup yields `None` and the call raises
`UnboundLocalError` (line 143) before the zero-jobs branch — which is itself
unreachable, because the returned envelope is a five-key dict and therefore
always truthy under `if not jobs:`. -/
theorem c3_restart_all_zero_failed_raises :
    restart_all_failed_jobs storeNoJobs = Except.error PyErr.unboundLocalError := rfl

/-- Claim C4: the claim says `restart_all_failed_jobs` fetches the whole failed set
unpaginated and issues one restart per failed job, reporting the success
count.  The code violates this: the fetch is the same tenant-less call (which
raises `UnboundLocalError`), it passes the default `page_size=10` rather than
fetching everything, and the comprehension iterates the envelope dict's keys,
so `job.id` would raise `AttributeError` before any restart.  This theorem
evaluates the operation on a store that does hold a failed job. -/
theorem c4_restart_all_raises_before_restarting :
    restart_all_failed_jobs storeOneJob = Except.error PyErr.unboundLocalError := rfl

/-- Claim C7: every page envelope a successful listing call returns satisfies
`pages = ceil(total / page_size)`, for any `page_size ≥ 1` (`total` is a
count, hence nonnegative). -/
theorem c7_pages_eq_ceil (store : Store) (status_filter search tenant_filter : Option String)
    (page page_size : Int) (env : Envelope) (hps : 1 ≤ page_size)
    (h : get_scan_jobs_by_status store status_filter search tenant_filter page page_size =
      Except.ok env) :
    env.pages = ⌈(env.total : ℚ) / (env.page_size : ℚ)⌉ := by
  obtain ⟨db_name, q, jobs, htb, hfault, hps0, henv⟩ := get_scan_jobs_ok_inv h
  subst henv
  show Int.fdiv ((countDocs store db_name q : Int) + page_size - 1) page_size = _
  rw [Int.fdiv_eq_ediv _ (by omega)]
  have := ediv_ceil_eq ((countDocs store db_name q : Nat) : Int) page_size (by omega)
  rw [this]
  norm_cast

/-- The envelope of the C7 witness call. -/
def envC7 : Envelope := { total := 0, items := [], page := 1, page_size := 10, pages := 0 }

theorem c7_pages_eq_ceil_witness :
    envC7.pages = ⌈(envC7.total : ℚ) / (envC7.page_size : ℚ)⌉ :=
  c7_pages_eq_ceil storeNoJobs (some "failed") none (some "acme") 1 10 envC7 (by decide) rfl

/-- Claim C8: a call requesting a page strictly beyond `pages` (with `page ≥ 1`,
`page_size ≥ 1`) returns empty `items` while `total` and `pages` agree with
the page-1 call over the same predicate and filters, and the requested page
number is echoed back unclamped. -/
theorem c8_page_beyond_pages (store : Store)
    (status_filter search tenant_filter : Option String) (page page_size : Int)
    (env1 envN : Envelope) (hps : 1 ≤ page_size) (_hpage : 1 ≤ page)
    (h1 : get_scan_jobs_by_status store status_filter search tenant_filter 1 page_size =
      Except.ok env1)
    (hN : get_scan_jobs_by_status store status_filter search tenant_filter page page_size =
      Except.ok envN)
    (hbeyond : env1.pages < page) :
    envN.items = [] ∧ envN.total = env1.total ∧ envN.pages = env1.pages ∧
      envN.page = page := by
  obtain ⟨db1, q1, jobs1, htb1, _, _, henv1⟩ := get_scan_jobs_ok_inv h1
  obtain ⟨dbN, qN, jobsN, htbN, _, _, henvN⟩ := get_scan_jobs_ok_inv hN
  have hfst : (some (db1, q1) : Option (String × JobQuery)) = some (dbN, qN) := by
    have e1 : (tryBody store (tenantOf store tenant_filter) status_filter search tenant_filter
        1 page_size).1 = some (db1, q1) := by rw [htb1]
    have eN : (tryBody store (tenantOf store tenant_filter) status_filter search tenant_filter
        page page_size).1 = some (dbN, qN) := by rw [htbN]
    rw [tryBody_fst] at e1 eN
    rw [← e1, ← eN]
  obtain ⟨rfl, rfl⟩ := Prod.mk.inj (Option.some.inj hfst)
  have hpages : env1.pages =
      Int.fdiv ((countDocs store db1 q1 : Int) + page_size - 1) page_size := by
    rw [henv1]; rfl
  have hcnt : ((countDocs store db1 q1 : Nat) : Int) ≤ (page - 1) * page_size := by
    rw [hpages, Int.fdiv_eq_ediv _ (by omega)] at hbeyond
    have hmod := Int.ediv_add_emod ((countDocs store db1 q1 : Int) + page_size - 1) page_size
    have hr0 : 0 ≤ ((countDocs store db1 q1 : Int) + page_size - 1) % page_size :=
      Int.emod_nonneg _ (by omega)
    have hr1 : ((countDocs store db1 q1 : Int) + page_size - 1) % page_size < page_size :=
      Int.emod_lt_of_pos _ (by omega)
    have hQp : ((countDocs store db1 q1 : Int) + page_size - 1) / page_size ≤ page - 1 := by
      omega
    have hmul := mul_le_mul_of_nonneg_right hQp (show (0 : Int) ≤ page_size by omega)
    nlinarith
  have hcntNat : countDocs store db1 q1 ≤ ((page - 1) * page_size).toNat := by omega
  have hempty := tryBody_snd_empty store (tenantOf store tenant_filter) status_filter search
    tenant_filter page page_size db1 q1 (by rw [htbN]) hcntNat
  rw [htbN] at hempty
  refine ⟨?_, ?_, ?_, ?_⟩
  · rw [henvN]; exact hempty
  · rw [henvN, henv1]; rfl
  · rw [henvN, henv1]; rfl
  · rw [henvN]; rfl

/-- The normalized record of `jobFailedRaw` in `db1`. -/
def jobFailedRec : ScanJob :=
  { id := "j1"
    database := "db1"
    collection := "scan_jobs_asset_discovery"
    status := "failed"
    tenant_id := "t0"
    domain := "example.com"
    is_latest := true
    created_at := none
    completed_at := none
    error_message := none
    duration := none
    documents_processed := none }

/-- Page-1 envelope of the one-job store. -/
def envC8page1 : Envelope :=
  { total := 1, items := [jobFailedRec], page := 1, page_size := 10, pages := 1 }

/-- Page-2 envelope of the one-job store: beyond `pages`. -/
def envC8page2 : Envelope :=
  { total := 1, items := [], page := 2, page_size := 10, pages := 1 }

theorem c8_page_beyond_pages_witness :
    envC8page2.items = [] ∧ envC8page2.total = envC8page1.total ∧
      envC8page2.pages = envC8page1.pages ∧ envC8page2.page = 2 :=
  c8_page_beyond_pages storeOneJob (some "failed") none (some "acme") 2 10
    envC8page1 envC8page2 (by decide) (by decide) rfl rfl (by decide)

/-- What a status condition allows. -/
def statusAllows : StatusCond → String → Prop
  | StatusCond.eq s0, s => s = s0
  | StatusCond.isIn l, s => s ∈ l

/-- A matching status condition pins the stored field to an allowed string. -/
theorem statusMatches_inv {c : StatusCond} {ov : Option MVal}
    (h : statusMatches c ov = true) :
    ∃ s, ov = some (MVal.str s) ∧ statusAllows c s := by
  cases c with
  | eq s0 =>
    cases ov with
    | none => exact nomatch h
    | some v =>
      cases v with
      | str s =>
          refine ⟨s, rfl, ?_⟩
          simpa [statusMatches, statusAllows] using h
      | objectId s => exact nomatch h
      | date u => exact nomatch h
      | int n => exact nomatch h
      | bool b => exact nomatch h
      | null => exact nomatch h
  | isIn l =>
    cases ov with
    | none => exact nomatch h
    | some v =>
      cases v with
      | str s =>
          refine ⟨s, rfl, ?_⟩
          simpa [statusMatches, statusAllows, List.contains, List.elem_iff] using h
      | objectId s => exact nomatch h
      | date u => exact nomatch h
      | int n => exact nomatch h
      | bool b => exact nomatch h
      | null => exact nomatch h

/-- Every item of a successful listing whose query carries a status condition
has a status that condition allows. -/
theorem listing_status_sound (store : Store)
    (status_filter search tenant_filter : Option String) (page page_size : Int)
    (env : Envelope) (c : StatusCond)
    (hc : (buildBaseQuery status_filter search).statusCond = some c)
    (h : get_scan_jobs_by_status store status_filter search tenant_filter page page_size =
      Except.ok env) :
    ∀ j ∈ env.items, statusAllows c j.status := by
  intro j hj
  obtain ⟨db_name, q, jobs, htb, _, _, henv⟩ := get_scan_jobs_ok_inv h
  have hjitems : j ∈ jobs := by rw [henv] at hj; exact hj
  have hbq : (tryBody store (tenantOf store tenant_filter) status_filter search tenant_filter
      page page_size).1 = some (db_name, q) := by rw [htb]
  obtain ⟨d, hmem, hmatch, hbuild⟩ := tryBody_snd_mem hbq (by rw [htb]; exact hjitems)
  have hsc : q.statusCond = some c := by
    rw [tryBody_fst] at hbq
    rw [boundOf_statusCond hbq, hc]
  simp only [docMatches, Bool.and_eq_true] at hmatch
  have hstat : statusMatches c (alookup "status" d) = true := by
    have := hmatch.1.2
    rw [hsc] at this
    exact this
  obtain ⟨s, hlook, hallow⟩ := statusMatches_inv hstat
  have hser : alookup "status" (serialize_mongo_doc d) = some (MVal.str s) := by
    rw [alookup_serialize (by decide) (by decide), hlook]
    rfl
  obtain ⟨-, hstatus, -, -, -, -, -, -, -, -, -, -⟩ := buildScanJob_ok_inv hbuild
  rw [hser] at hstatus
  have : s = j.status := by simpa [reqStrD] using hstatus
  rw [← this]
  exact hallow

/-- Claim C9: with the `failed` bucket every returned record has status `failed`,
and with the `completed`/`running` buckets every returned record's status lies
in that bucket's status set — no record from another bucket appears. -/
theorem c9_bucket_sound (store : Store) (search tenant_filter : Option String)
    (page page_size : Int) (bucket : String) (allowed : List String) (env : Envelope)
    (hba : (bucket, allowed) ∈
      [("failed", ["failed"]), ("completed", ["completed"]), ("running", ["running"])])
    (h : get_scan_jobs_by_status store (some bucket) search tenant_filter page page_size =
      Except.ok env) :
    ∀ j ∈ env.items, j.status ∈ allowed := by
  intro j hj
  simp only [List.mem_cons, List.not_mem_nil, or_false, Prod.mk.injEq] at hba
  rcases hba with ⟨rfl, rfl⟩ | ⟨rfl, rfl⟩ | ⟨rfl, rfl⟩
  · have := listing_status_sound store (some "failed") search tenant_filter page page_size
      env (StatusCond.eq "failed") rfl h j hj
    simp only [statusAllows] at this
    simp [this]
  · have := listing_status_sound store (some "completed") search tenant_filter page page_size
      env (StatusCond.isIn ["completed"]) rfl h j hj
    simpa [statusAllows] using this
  · have := listing_status_sound store (some "running") search tenant_filter page page_size
      env (StatusCond.isIn ["running"]) rfl h j hj
    simpa [statusAllows] using this

theorem c9_bucket_sound_witness : jobFailedRec.status ∈ (["failed"] : List String) :=
  c9_bucket_sound storeOneJob none (some "acme") 1 10 "failed" ["failed"] envC8page1
    (by decide) rfl jobFailedRec (by decide)

/-- When both timestamp fields parse, the duration is their truncated
difference in seconds (or `None` on an aware/naive mix). -/
theorem computeDuration_parse_some {sd : RawDoc} {t1 t2 : PyDT}
    (h1 : pyParseTs (alookup "created_at" sd) = some t1)
    (h2 : pyParseTs (alookup "completed_at" sd) = some t2) :
    computeDuration sd =
      if t1.aware = t2.aware then some (Int.tdiv (t2.usec - t1.usec) 1000000) else none := by
  unfold computeDuration
  cases hca : alookup "created_at" sd with
  | none => rw [hca] at h1; exact nomatch h1
  | some cv =>
    cases hcoa : alookup "completed_at" sd with
    | none => rw [hcoa] at h2; exact nomatch h2
    | some cov =>
      rw [hca] at h1
      rw [hcoa] at h2
      simp only []
      rw [pyParseTs_some_truthy h1, pyParseTs_some_truthy h2]
      simp only [Bool.and_self, if_true, h1, h2]

/-- When either timestamp field fails to parse (including when it is missing,
falsy, or not a string), the duration is `None`. -/
theorem computeDuration_parse_none {sd : RawDoc}
    (h : pyParseTs (alookup "created_at" sd) = none ∨
      pyParseTs (alookup "completed_at" sd) = none) :
    computeDuration sd = none := by
  unfold computeDuration
  cases hca : alookup "created_at" sd with
  | none => rfl
  | some cv =>
    cases hcoa : alookup "completed_at" sd with
    | none => rfl
    | some cov =>
      rw [hca, hcoa] at h
      simp only []
      by_cases htr : (pyTruthy cv && pyTruthy cov) = true
      · rw [if_pos htr]
        rcases h with h | h
        · rw [h]
        · rw [h]
          cases hp : pyParseTs (some cv) <;> rfl
      · rw [if_neg htr]

/-- Claim C5 (amended): for every record the normalization produces, `duration` is
recomputed from the two timestamp fields alone — if both parse (with matching
awareness) it is the difference in seconds truncated toward zero, which equals
the floor exactly when `completed_at ≥ created_at`; on an aware/naive mix or
any parse failure it is `None`; and a stored `duration` field is never read
(removing it changes nothing). -/
theorem c5_duration_recomputed_truncated (db_name : String) (sd : RawDoc) (j : ScanJob)
    (h : buildScanJob db_name sd = Except.ok j) :
    (∀ t1 t2, pyParseTs (alookup "created_at" sd) = some t1 →
        pyParseTs (alookup "completed_at" sd) = some t2 →
        (t1.aware = t2.aware →
          j.duration = some (Int.tdiv (t2.usec - t1.usec) 1000000) ∧
          (t1.usec ≤ t2.usec →
            j.duration = some (Int.fdiv (t2.usec - t1.usec) 1000000))) ∧
        (¬ t1.aware = t2.aware → j.duration = none)) ∧
    ((pyParseTs (alookup "created_at" sd) = none ∨
        pyParseTs (alookup "completed_at" sd) = none) → j.duration = none) ∧
    buildScanJob db_name (sd.filter fun kv => kv.1 != "duration") = Except.ok j := by
  obtain ⟨-, -, -, -, -, -, -, -, -, hdur, -, -⟩ := buildScanJob_ok_inv h
  refine ⟨?_, ?_, ?_⟩
  · intro t1 t2 h1 h2
    have hcd := computeDuration_parse_some h1 h2
    constructor
    · intro haw
      rw [if_pos haw] at hcd
      constructor
      · rw [hdur, hcd]
      · intro hle
        rw [hdur, hcd]
        have h0 : 0 ≤ t2.usec - t1.usec := by omega
        rw [Int.tdiv_eq_ediv h0 (by omega), Int.fdiv_eq_ediv _ (by omega)]
    · intro haw
      rw [if_neg haw] at hcd
      rw [hdur, hcd]
  · intro hnone
    rw [hdur, computeDuration_parse_none hnone]
  · have hf : ∀ k : String, k ≠ "duration" →
        alookup k (sd.filter fun kv => kv.1 != "duration") = alookup k sd :=
      fun k hk => alookup_filter_ne hk sd
    have hcd2 : computeDuration (sd.filter fun kv => kv.1 != "duration") =
        computeDuration sd := by
      unfold computeDuration
      rw [hf "created_at" (by decide), hf "completed_at" (by decide)]
    have hsame : buildScanJob db_name (sd.filter fun kv => kv.1 != "duration") =
        buildScanJob db_name sd := by
      unfold buildScanJob
      simp only [hf "id" (by decide), hf "status" (by decide), hf "is_latest" (by decide),
        hf "tenant_id" (by decide), hf "domain" (by decide), hf "created_at" (by decide),
        hf "completed_at" (by decide), hf "error_message" (by decide),
        hf "documents_processed" (by decide), hcd2]
    rw [hsame]
    exact h

/-- The C5 counterexample document: `completed_at` lies 1.5 seconds before
`created_at`. -/
def docC5floor : RawDoc :=
  [("created_at", MVal.str "2024-01-01T00:00:01.500000"),
   ("completed_at", MVal.str "2024-01-01T00:00:00")]

/-- Claim C5 counterexample: both timestamps parse, their difference is -1.5
seconds, the record's duration is `-1` (truncation toward zero), but the
floor of the difference in seconds is `-2` — so duration is not
`floor(completed_at - created_at)` as the claim states. -/
theorem c5_floor_counterexample :
    Except.map ScanJob.duration (buildScanJob "db1" docC5floor) = Except.ok (some (-1)) ∧
    pyParseTs (alookup "created_at" docC5floor) =
      some { usec := 1704067201500000, aware := false } ∧
    pyParseTs (alookup "completed_at" docC5floor) =
      some { usec := 1704067200000000, aware := false } ∧
    Int.fdiv (1704067200000000 - 1704067201500000) 1000000 = -2 ∧
    ((-2 : Int) ≠ (-1 : Int)) := by
  refine ⟨rfl, rfl, rfl, rfl, by decide⟩

/-- The C5 witness document: `created_at` carries a lowercase `z` designator,
so the duration parse fails (swallowed) while model validation accepts it. -/
def docC5w : RawDoc :=
  [("created_at", MVal.str "2024-01-01T00:00:00z"),
   ("completed_at", MVal.str "2024-01-01T00:02:05Z")]

/-- The record `docC5w` normalizes to: built, with a `None` duration. -/
def jobC5w : ScanJob :=
  { id := ""
    database := "db1"
    collection := "scan_jobs_asset_discovery"
    status := "unknown"
    tenant_id := ""
    domain := ""
    is_latest := false
    created_at := some { usec := 1704067200000000, aware := true }
    completed_at := some { usec := 1704067325000000, aware := true }
    error_message := none
    duration := none
    documents_processed := none }

theorem c5_duration_recomputed_truncated_witness : jobC5w.duration = none :=
  (c5_duration_recomputed_truncated "db1" docC5w jobC5w rfl).2.1 (Or.inl rfl)

/-- The C6 counterexample document: latest, domain `ab`, no field containing
a literal dot. -/
def docC6 : RawDoc := [("is_latest", MVal.bool true), ("domain", MVal.str "ab")]

/-- Claim C6 counterexample: with search string `"."` the built query matches
`docC6` (the dot is a regex metacharacter matching any character), yet `"."`
is not a substring of any of the three searched fields — so the search filter
is not substring matching for every search string. -/
theorem c6_regex_counterexample :
    docMatches (buildBaseQuery none (some ".")) docC6 = true ∧
    searchMatchesSpec "." docC6 = false := by
  refine ⟨rfl, rfl⟩

/-- Claim C6 (amended): the search filter is case-insensitive regex matching
over `domain`, `tenant_id`, `error_message` (the search string is interpreted
as a `$regex` pattern); on search strings free of every PCRE metacharacter
(`. * + ? [ ] ( ) | \\ ^ $ \x7b \x7d`) — where the pattern is plain literals in
PCRE and in the model alike — it coincides with the spec's case-insensitive
substring matching. -/
theorem c6_search_literal_substring (search : String) (d : RawDoc)
    (h : ∀ c ∈ search.toList, c ∉ pcreMetachars) :
    searchOrMatches search d = searchMatchesSpec search d := by
  have hcomp : compileRegex search.toList = some (litItems search.toList) :=
    compileRegex_lit h
  have key : ∀ k : String, regexFieldMatch search d k =
      (match alookup k d with
       | some (MVal.str s) => containsSub (lowerList search) (lowerList s)
       | _ => false) := by
    intro k
    unfold regexFieldMatch
    rw [hcomp]
    cases alookup k d with
    | none => rfl
    | some v =>
      cases v with
      | str s =>
          show reSearch (litItems search.toList) s.toList =
            containsSub (lowerList search) (lowerList s)
          exact reSearch_lit search.toList s.toList
      | objectId s => rfl
      | date u => rfl
      | int n => rfl
      | bool b => rfl
      | null => rfl
  unfold searchOrMatches searchMatchesSpec
  simp only [searchFields, List.any_cons, List.any_nil, key]

/-- The C6 witness document. -/
def docC6w : RawDoc := [("domain", MVal.str "xAbY")]

theorem c6_search_literal_substring_witness :
    searchOrMatches "AB" docC6w = searchMatchesSpec "AB" docC6w :=
  c6_search_literal_substring "AB" docC6w (by decide)


/-- A serialized document is well-typed for the `ScanJob` model: every field
the model reads, when present, carries the declared shape (strings for the
string fields, a boolean for `is_latest`, `None` or a parseable timestamp
string for the datetime fields, `None` or an integer for
`documents_processed`). -/
def wellTypedSerialized (sd : RawDoc) : Bool :=
  (match alookup "id" sd with
   | none => true | some (MVal.str _) => true | some _ => false) &&
  (match alookup "status" sd with
   | none => true | some (MVal.str _) => true | some _ => false) &&
  (match alookup "is_latest" sd with
   | none => true | some (MVal.bool _) => true | some _ => false) &&
  (match alookup "tenant_id" sd with
   | none => true | some (MVal.str _) => true | some _ => false) &&
  (match alookup "domain" sd with
   | none => true | some (MVal.str _) => true | some _ => false) &&
  (match alookup "created_at" sd with
   | none => true | some MVal.null => true
   | some (MVal.str s) => (pydanticParseDT s).isSome | some _ => false) &&
  (match alookup "completed_at" sd with
   | none => true | some MVal.null => true
   | some (MVal.str s) => (pydanticParseDT s).isSome | some _ => false) &&
  (match alookup "error_message" sd with
   | none => true | some MVal.null => true | some (MVal.str _) => true | some _ => false) &&
  (match alookup "documents_processed" sd with
   | none => true | some MVal.null => true | some (MVal.int _) => true | some _ => false)

/-- On a well-typed serialized document the model constructor succeeds and
missing fields take the sentinel defaults. -/
theorem buildScanJob_wellTyped (db_name : String) (sd : RawDoc)
    (h : wellTypedSerialized sd = true) :
    ∃ j, buildScanJob db_name sd = Except.ok j ∧
      (alookup "id" sd = none → j.id = "") ∧
      (alookup "status" sd = none → j.status = "unknown") ∧
      (alookup "is_latest" sd = none → j.is_latest = false) ∧
      (alookup "tenant_id" sd = none → j.tenant_id = "") ∧
      (alookup "domain" sd = none → j.domain = "") ∧
      (alookup "created_at" sd = none → j.created_at = none) ∧
      (alookup "completed_at" sd = none → j.completed_at = none) ∧
      (alookup "error_message" sd = none → j.error_message = none) ∧
      (alookup "documents_processed" sd = none → j.documents_processed = none) := by
  simp only [wellTypedSerialized, Bool.and_eq_true] at h
  obtain ⟨⟨⟨⟨⟨⟨⟨⟨h1, h2⟩, h3⟩, h4⟩, h5⟩, h6⟩, h7⟩, h8⟩, h9⟩ := h
  have e1 : ∃ r, reqStrD (alookup "id" sd) "" = Except.ok r ∧
      (alookup "id" sd = none → r = "") := by
    cases hv : alookup "id" sd with
    | none => exact ⟨"", rfl, fun _ => rfl⟩
    | some v =>
      rw [hv] at h1
      cases v with
      | str s => exact ⟨s, rfl, fun hc => nomatch hc⟩
      | objectId s => exact nomatch h1
      | date u => exact nomatch h1
      | int n => exact nomatch h1
      | bool b => exact nomatch h1
      | null => exact nomatch h1
  have e2 : ∃ r, reqStrD (alookup "status" sd) "unknown" = Except.ok r ∧
      (alookup "status" sd = none → r = "unknown") := by
    cases hv : alookup "status" sd with
    | none => exact ⟨"unknown", rfl, fun _ => rfl⟩
    | some v =>
      rw [hv] at h2
      cases v with
      | str s => exact ⟨s, rfl, fun hc => nomatch hc⟩
      | objectId s => exact nomatch h2
      | date u => exact nomatch h2
      | int n => exact nomatch h2
      | bool b => exact nomatch h2
      | null => exact nomatch h2
  have e3 : ∃ r, reqBoolD (alookup "is_latest" sd) false = Except.ok r ∧
      (alookup "is_latest" sd = none → r = false) := by
    cases hv : alookup "is_latest" sd with
    | none => exact ⟨false, rfl, fun _ => rfl⟩
    | some v =>
      rw [hv] at h3
      cases v with
      | bool b => exact ⟨b, rfl, fun hc => nomatch hc⟩
      | objectId s => exact nomatch h3
      | date u => exact nomatch h3
      | int n => exact nomatch h3
      | str s => exact nomatch h3
      | null => exact nomatch h3
  have e4 : ∃ r, reqStrD (alookup "tenant_id" sd) "" = Except.ok r ∧
      (alookup "tenant_id" sd = none → r = "") := by
    cases hv : alookup "tenant_id" sd with
    | none => exact ⟨"", rfl, fun _ => rfl⟩
    | some v =>
      rw [hv] at h4
      cases v with
      | str s => exact ⟨s, rfl, fun hc => nomatch hc⟩
      | objectId s => exact nomatch h4
      | date u => exact nomatch h4
      | int n => exact nomatch h4
      | bool b => exact nomatch h4
      | null => exact nomatch h4
  have e5 : ∃ r, reqStrD (alookup "domain" sd) "" = Except.ok r ∧
      (alookup "domain" sd = none → r = "") := by
    cases hv : alookup "domain" sd with
    | none => exact ⟨"", rfl, fun _ => rfl⟩
    | some v =>
      rw [hv] at h5
      cases v with
      | str s => exact ⟨s, rfl, fun hc => nomatch hc⟩
      | objectId s => exact nomatch h5
      | date u => exact nomatch h5
      | int n => exact nomatch h5
      | bool b => exact nomatch h5
      | null => exact nomatch h5
  have e6 : ∃ r, reqOptDT (alookup "created_at" sd) = Except.ok r ∧
      (alookup "created_at" sd = none → r = none) := by
    cases hv : alookup "created_at" sd with
    | none => exact ⟨none, rfl, fun _ => rfl⟩
    | some v =>
      rw [hv] at h6
      cases v with
      | str s =>
          simp only [] at h6
          cases hp : pydanticParseDT s with
          | none => rw [hp] at h6; exact nomatch h6
          | some t =>
              refine ⟨some t, ?_, fun hc => nomatch hc⟩
              show (match pydanticParseDT s with
                | some t => Except.ok (some t)
                | none => Except.error ()) = Except.ok (some t)
              rw [hp]
      | null => exact ⟨none, rfl, fun hc => nomatch hc⟩
      | objectId s => exact nomatch h6
      | date u => exact nomatch h6
      | int n => exact nomatch h6
      | bool b => exact nomatch h6
  have e7 : ∃ r, reqOptDT (alookup "completed_at" sd) = Except.ok r ∧
      (alookup "completed_at" sd = none → r = none) := by
    cases hv : alookup "completed_at" sd with
    | none => exact ⟨none, rfl, fun _ => rfl⟩
    | some v =>
      rw [hv] at h7
      cases v with
      | str s =>
          simp only [] at h7
          cases hp : pydanticParseDT s with
          | none => rw [hp] at h7; exact nomatch h7
          | some t =>
              refine ⟨some t, ?_, fun hc => nomatch hc⟩
              show (match pydanticParseDT s with
                | some t => Except.ok (some t)
                | none => Except.error ()) = Except.ok (some t)
              rw [hp]
      | null => exact ⟨none, rfl, fun hc => nomatch hc⟩
      | objectId s => exact nomatch h7
      | date u => exact nomatch h7
      | int n => exact nomatch h7
      | bool b => exact nomatch h7
  have e8 : ∃ r, reqOptStr (alookup "error_message" sd) = Except.ok r ∧
      (alookup "error_message" sd = none → r = none) := by
    cases hv : alookup "error_message" sd with
    | none => exact ⟨none, rfl, fun _ => rfl⟩
    | some v =>
      rw [hv] at h8
      cases v with
      | str s => exact ⟨some s, rfl, fun hc => nomatch hc⟩
      | null => exact ⟨none, rfl, fun hc => nomatch hc⟩
      | objectId s => exact nomatch h8
      | date u => exact nomatch h8
      | int n => exact nomatch h8
      | bool b => exact nomatch h8
  have e9 : ∃ r, reqOptInt (alookup "documents_processed" sd) = Except.ok r ∧
      (alookup "documents_processed" sd = none → r = none) := by
    cases hv : alookup "documents_processed" sd with
    | none => exact ⟨none, rfl, fun _ => rfl⟩
    | some v =>
      rw [hv] at h9
      cases v with
      | int n => exact ⟨some n, rfl, fun hc => nomatch hc⟩
      | null => exact ⟨none, rfl, fun hc => nomatch hc⟩
      | objectId s => exact nomatch h9
      | date u => exact nomatch h9
      | str s => exact nomatch h9
      | bool b => exact nomatch h9
  obtain ⟨r1, hr1, hd1⟩ := e1
  obtain ⟨r2, hr2, hd2⟩ := e2
  obtain ⟨r3, hr3, hd3⟩ := e3
  obtain ⟨r4, hr4, hd4⟩ := e4
  obtain ⟨r5, hr5, hd5⟩ := e5
  obtain ⟨r6, hr6, hd6⟩ := e6
  obtain ⟨r7, hr7, hd7⟩ := e7
  obtain ⟨r8, hr8, hd8⟩ := e8
  obtain ⟨r9, hr9, hd9⟩ := e9
  refine ⟨⟨r1, db_name, "scan_jobs_asset_discovery", r2, r4, r5, r3, r6, r7, r8,
    computeDuration sd, r9⟩, ?_, hd1, hd2, hd3, hd4, hd5, hd6, hd7, hd8, hd9⟩
  unfold buildScanJob
  simp only [hr1, hr2, hr3, hr4, hr5, hr6, hr7, hr8, hr9, except_bind_ok]

/-- Claim C10 (amended): normalization of a fetched document succeeds whenever the
serialized document is well-typed for the model, substituting non-null
sentinel defaults for the missing non-optional fields (`id` → `""`,
`status` → `"unknown"`, `is_latest` → `false`, `tenant_id`/`domain` → `""`)
and `None` for the missing optional ones; it is not total over arbitrary
contents — a present field of the wrong shape fails validation (see the
counterexample). -/
theorem c10_normalization_defaults (db_name : String) (d : RawDoc)
    (h : wellTypedSerialized (serialize_mongo_doc d) = true) :
    (buildScanJob db_name (serialize_mongo_doc d)).isOk = true ∧
    (alookup "id" (serialize_mongo_doc d) = none →
      Except.map ScanJob.id (buildScanJob db_name (serialize_mongo_doc d)) = Except.ok "") ∧
    (alookup "status" (serialize_mongo_doc d) = none →
      Except.map ScanJob.status (buildScanJob db_name (serialize_mongo_doc d)) =
        Except.ok "unknown") ∧
    (alookup "is_latest" (serialize_mongo_doc d) = none →
      Except.map ScanJob.is_latest (buildScanJob db_name (serialize_mongo_doc d)) =
        Except.ok false) ∧
    (alookup "tenant_id" (serialize_mongo_doc d) = none →
      Except.map ScanJob.tenant_id (buildScanJob db_name (serialize_mongo_doc d)) =
        Except.ok "") ∧
    (alookup "domain" (serialize_mongo_doc d) = none →
      Except.map ScanJob.domain (buildScanJob db_name (serialize_mongo_doc d)) =
        Except.ok "") ∧
    (alookup "created_at" (serialize_mongo_doc d) = none →
      Except.map ScanJob.created_at (buildScanJob db_name (serialize_mongo_doc d)) =
        Except.ok none) ∧
    (alookup "completed_at" (serialize_mongo_doc d) = none →
      Except.map ScanJob.completed_at (buildScanJob db_name (serialize_mongo_doc d)) =
        Except.ok none) ∧
    (alookup "error_message" (serialize_mongo_doc d) = none →
      Except.map ScanJob.error_message (buildScanJob db_name (serialize_mongo_doc d)) =
        Except.ok none) ∧
    (alookup "documents_processed" (serialize_mongo_doc d) = none →
      Except.map ScanJob.documents_processed (buildScanJob db_name (serialize_mongo_doc d)) =
        Except.ok none) := by
  obtain ⟨j, hj, hd1, hd2, hd3, hd4, hd5, hd6, hd7, hd8, hd9⟩ :=
    buildScanJob_wellTyped db_name (serialize_mongo_doc d) h
  rw [hj]
  refine ⟨rfl, ?_, ?_, ?_, ?_, ?_, ?_, ?_, ?_, ?_⟩
  · intro hc; rw [show Except.map ScanJob.id (Except.ok j) = Except.ok j.id from rfl, hd1 hc]
  · intro hc
    rw [show Except.map ScanJob.status (Except.ok j) = Except.ok j.status from rfl, hd2 hc]
  · intro hc
    rw [show Except.map ScanJob.is_latest (Except.ok j) = Except.ok j.is_latest from rfl,
      hd3 hc]
  · intro hc
    rw [show Except.map ScanJob.tenant_id (Except.ok j) = Except.ok j.tenant_id from rfl,
      hd4 hc]
  · intro hc
    rw [show Except.map ScanJob.domain (Except.ok j) = Except.ok j.domain from rfl, hd5 hc]
  · intro hc
    rw [show Except.map ScanJob.created_at (Except.ok j) = Except.ok j.created_at from rfl,
      hd6 hc]
  · intro hc
    rw [show Except.map ScanJob.completed_at (Except.ok j) = Except.ok j.completed_at
      from rfl, hd7 hc]
  · intro hc
    rw [show Except.map ScanJob.error_message (Except.ok j) = Except.ok j.error_message
      from rfl, hd8 hc]
  · intro hc
    rw [show Except.map ScanJob.documents_processed (Except.ok j) =
      Except.ok j.documents_processed from rfl, hd9 hc]

/-- The C10 counterexample document: a present `created_at` of the wrong
shape (an unparsable string). -/
def docC10 : RawDoc :=
  [("_id", MVal.objectId "a1"), ("is_latest", MVal.bool true),
   ("created_at", MVal.str "not-a-date")]

/-- Claim C10 counterexample: normalization is not total over arbitrary document
contents — this document's model validation fails (in the code, the pydantic
`ValidationError` raises inside the loop). -/
theorem c10_not_total_counterexample :
    buildScanJob "db1" (serialize_mongo_doc docC10) = Except.error () := rfl

/-- The C10 witness document. -/
def docC10w : RawDoc := [("_id", MVal.objectId "a1")]

theorem c10_normalization_defaults_witness :
    Except.map ScanJob.status (buildScanJob "db1" (serialize_mongo_doc docC10w)) =
      Except.ok "unknown" :=
  (c10_normalization_defaults "db1" docC10w (by decide)).2.2.1 (by decide)
